import Mathlib

/-!
Shallow embedding of the benchmark execution engine in
`collector/src/execute/mod.rs` of rustc-perf, together with theorems about the
retry loop of `CargoProcess::run_rustc`, the iteration/scenario matrix of
`Benchmark::measure`, the statistics parser `process_stat_output`, the `Stats`
map, and the `Patch` ordering and identity.

Conventions used throughout:
- Rust `usize`/`u8`/`u64` become `Nat`; Rust `f64` values become `Rat` (the
  statistics parsed by the claims are exact decimals, so no rounding is
  involved).
- Strings are processed through their character lists, mirroring the byte-wise
  Rust code on the ASCII inputs it handles.
- Subprocess execution and filesystem access are abstraction points: the
  compiler invocation itself is represented by a spawn counter, and the
  external `etw_parser::parse_etw_file` decoder is a function parameter.
-/

namespace Collector

/-- Modelled from the spec: `crate::Profile` is declared outside `src/`; the
spec (§3) fixes the closed variant set Check, Debug, Doc, Opt and the meta
variant All, never instantiated at runtime. -/
inductive Profile
  | Check
  | Debug
  | Doc
  | Opt
  | All
deriving DecidableEq

/-- Modelled from the spec: `crate::Scenario` is declared outside `src/`; the
spec (§3) fixes the closed variant set Full, IncrFull (IncrementalFromScratch),
IncrUnchanged (IncrementalNoChange), IncrPatched (IncrementalWithPatch) and the
meta variant All. -/
inductive Scenario
  | Full
  | IncrFull
  | IncrUnchanged
  | IncrPatched
  | All
deriving DecidableEq

/-- Modelled from the spec: `Scenario::is_incr` is declared outside `src/`.
Per the spec (§3, §4.2) the incremental scenarios are IncrFull, IncrUnchanged
and IncrPatched; Full is not incremental. All is meta, stands for every
scenario (incremental ones included) and is never dispatched. -/
def Scenario.is_incr : Scenario → Bool
  | Scenario.Full => false
  | _ => true

/-- Tools usable with the benchmarking subcommands (mod.rs 72-78). -/
inductive Bencher
  | PerfStat
  | PerfStatSelfProfile
  | XperfStat
  | XperfStatSelfProfile
deriving DecidableEq

/-- `profiler::Profiler` is declared in `execute/profiler.rs`, outside `src/`;
its variant set is read off the exhaustive matches in
`PerfTool::cargo_subcommand` and `PerfTool::is_scenario_allowed`
(mod.rs 96-159). -/
inductive Profiler
  | SelfProfile
  | TimePasses
  | PerfRecord
  | Oprofile
  | Cachegrind
  | Callgrind
  | Dhat
  | DhatCopy
  | Massif
  | Bytehound
  | Eprintln
  | DepGraph
  | MonoItems
  | LlvmIr
  | LlvmLines
deriving DecidableEq

/-- `PerfTool` (mod.rs 80-84). -/
inductive PerfTool
  | BenchTool (b : Bencher)
  | ProfileTool (p : Profiler)
deriving DecidableEq

/-- Result of `PerfTool::cargo_subcommand` (mod.rs 96-131): `Some(sub)` becomes
`sub`, `None` becomes `unsupported`, and the `Profile::All => unreachable!()`
arm becomes `unreachableCase` (a panic, not an error return). -/
inductive CargoSub
  | sub (s : String)
  | unsupported
  | unreachableCase
deriving DecidableEq

/-- `PerfTool::cargo_subcommand` (mod.rs 96-131). -/
def PerfTool.cargo_subcommand : PerfTool → Profile → CargoSub
  | PerfTool.BenchTool Bencher.PerfStat, profile
  | PerfTool.BenchTool Bencher.PerfStatSelfProfile, profile
  | PerfTool.BenchTool Bencher.XperfStat, profile
  | PerfTool.BenchTool Bencher.XperfStatSelfProfile, profile
  | PerfTool.ProfileTool Profiler.SelfProfile, profile
  | PerfTool.ProfileTool Profiler.TimePasses, profile
  | PerfTool.ProfileTool Profiler.PerfRecord, profile
  | PerfTool.ProfileTool Profiler.Oprofile, profile
  | PerfTool.ProfileTool Profiler.Cachegrind, profile
  | PerfTool.ProfileTool Profiler.Callgrind, profile
  | PerfTool.ProfileTool Profiler.Dhat, profile
  | PerfTool.ProfileTool Profiler.DhatCopy, profile
  | PerfTool.ProfileTool Profiler.Massif, profile
  | PerfTool.ProfileTool Profiler.Bytehound, profile
  | PerfTool.ProfileTool Profiler.Eprintln, profile
  | PerfTool.ProfileTool Profiler.DepGraph, profile
  | PerfTool.ProfileTool Profiler.MonoItems, profile
  | PerfTool.ProfileTool Profiler.LlvmIr, profile =>
    if profile = Profile.Doc then CargoSub.sub ("rustdoc") else CargoSub.sub ("rustc")
  | PerfTool.ProfileTool Profiler.LlvmLines, Profile.Debug => CargoSub.sub ("llvm-lines")
  | PerfTool.ProfileTool Profiler.LlvmLines, Profile.Opt => CargoSub.sub ("llvm-lines")
  | PerfTool.ProfileTool Profiler.LlvmLines, Profile.Check => CargoSub.unsupported
  | PerfTool.ProfileTool Profiler.LlvmLines, Profile.Doc => CargoSub.unsupported
  | PerfTool.ProfileTool Profiler.LlvmLines, Profile.All => CargoSub.unreachableCase

/-- `PerfTool::is_scenario_allowed` (mod.rs 133-159). -/
def PerfTool.is_scenario_allowed : PerfTool → Scenario → Bool
  | PerfTool.BenchTool Bencher.PerfStat, _
  | PerfTool.BenchTool Bencher.PerfStatSelfProfile, _
  | PerfTool.BenchTool Bencher.XperfStat, _
  | PerfTool.BenchTool Bencher.XperfStatSelfProfile, _
  | PerfTool.ProfileTool Profiler.SelfProfile, _
  | PerfTool.ProfileTool Profiler.TimePasses, _
  | PerfTool.ProfileTool Profiler.PerfRecord, _
  | PerfTool.ProfileTool Profiler.Oprofile, _
  | PerfTool.ProfileTool Profiler.Cachegrind, _
  | PerfTool.ProfileTool Profiler.Callgrind, _
  | PerfTool.ProfileTool Profiler.Dhat, _
  | PerfTool.ProfileTool Profiler.DhatCopy, _
  | PerfTool.ProfileTool Profiler.Massif, _
  | PerfTool.ProfileTool Profiler.Bytehound, _
  | PerfTool.ProfileTool Profiler.MonoItems, _
  | PerfTool.ProfileTool Profiler.LlvmIr, _
  | PerfTool.ProfileTool Profiler.Eprintln, _ => true
  | PerfTool.ProfileTool Profiler.DepGraph, scenario => decide (scenario ≠ Scenario.Full)
  | PerfTool.ProfileTool Profiler.LlvmLines, scenario => decide (scenario = Scenario.Full)

/-- `Retry` (mod.rs 402-406) extended with the other two ways
`Processor::process_output` can end the retry loop of `run_rustc`
(mod.rs 357-374): an `Err` return, or a `panic!` (process abort). -/
inductive POOutcome
  | retryNo
  | retryYes
  | errOut
  | fatalOut
deriving DecidableEq

/-- A `Processor` (mod.rs 417-443) as `run_rustc` sees it: a state type σ (the
mutable processor instance), the currently active `PerfTool` (re-read on every
loop iteration, mod.rs 252), and `process_output`, which updates the state and
decides how the loop continues. -/
structure ProcModel (σ : Type) where
  perf_tool : σ → PerfTool
  process_output : σ → σ × POOutcome

/-- How a `run_rustc` call ends: `Ok(())`, an `Err` return, or a panic. -/
inductive RunResult
  | ok
  | error
  | fatal
deriving DecidableEq

/-- `CargoProcess::run_rustc` (mod.rs 237-375). The modelled state is the
processor state `s` plus a counter of compiler subprocesses issued so far
(each `command_output(&mut cmd)` at mod.rs 356; the auxiliary `cargo pkgid`
query is not a compiler invocation and is not counted). Each loop iteration
first validates the active tool against the scenario and resolves the cargo
subcommand for the profile (mod.rs 250-274) - failing there returns an error
with no subprocess spawned - then spawns the compiler subprocess and, with a
processor attached, dispatches on `process_output` (mod.rs 357-373): retry
loops, anything else ends the call. Without a processor the call is one-shot
(mod.rs 371-372). `fuel` bounds the number of loop iterations; `none` means
the fuel ran out before the loop ended. -/
def run_rustc {σ : Type} (proc : Option (ProcModel σ × Scenario)) (profile : Profile) :
    Nat → σ → Nat → Option (σ × Nat × RunResult)
  | 0, _, _ => none
  | fuel + 1, s, spawns =>
    match proc with
    | some (pm, scenario) =>
      if (pm.perf_tool s).is_scenario_allowed scenario then
        match (pm.perf_tool s).cargo_subcommand profile with
        | CargoSub.unsupported => some (s, spawns, RunResult.error)
        | CargoSub.unreachableCase => some (s, spawns, RunResult.fatal)
        | CargoSub.sub _ =>
          match pm.process_output s with
          | (s2, POOutcome.retryNo) => some (s2, spawns + 1, RunResult.ok)
          | (s2, POOutcome.retryYes) => run_rustc proc profile fuel s2 (spawns + 1)
          | (s2, POOutcome.errOut) => some (s2, spawns + 1, RunResult.error)
          | (s2, POOutcome.fatalOut) => some (s2, spawns + 1, RunResult.fatal)
      else some (s, spawns, RunResult.error)
    | none => some (s, spawns + 1, RunResult.ok)

/-- `BenchProcessor::process_output` (mod.rs 719-778) specialised to a run in
which `process_stat_output` always returns `DeserializeStatError::NoOutput`
(mod.rs 758-769): with fewer than 5 tries recorded so far the `tries` counter
is incremented and the run is retried; otherwise the processor panics. The
state is the `tries: u8` field (mod.rs 454), initialised to 0 at construction
(mod.rs 492) and never written anywhere else. -/
def benchNoOutput_process_output (tries : Nat) : Nat × POOutcome :=
  if tries < 5 then (tries + 1, POOutcome.retryYes) else (tries, POOutcome.fatalOut)

/-- A `BenchProcessor` whose output processing always reports `NoOutput`. Its
`perf_tool` on unix, outside a first self-profile collection, is
`PerfTool::BenchTool(Bencher::PerfStat)` (mod.rs 692-706); the choice does not
depend on `tries`. -/
def benchNoOutputProc : ProcModel Nat where
  perf_tool := fun _ => PerfTool.BenchTool Bencher.PerfStat
  process_output := benchNoOutput_process_output

/-- A processor whose active tool is the DepGraph profiler (which only allows
incremental scenarios, mod.rs 156) and whose output is always accepted. -/
def depGraphProc : ProcModel Unit where
  perf_tool := fun _ => PerfTool.ProfileTool Profiler.DepGraph
  process_output := fun s => (s, POOutcome.retryNo)

/-- `Patch` (mod.rs 1226-1230): numeric ordering index parsed from the
file-name prefix, human name, patch file path. `PatchName` (an interned string
type of the `database` crate) is modelled as `String`. -/
structure Patch where
  index : Nat
  name : String
  path : String
deriving DecidableEq

/-- `impl PartialEq for Patch` (mod.rs 1232-1236): equality compares `name`
only. -/
def Patch.beq (a b : Patch) : Bool := decide (a.name = b.name)

/-- `impl Hash for Patch` (mod.rs 1240-1244): only `self.name` is fed to the
hasher, so the hash is an arbitrary function of the name alone. -/
def Patch.hashWith (hasher : String → Nat) (p : Patch) : Nat := hasher p.name

/-- `Benchmark::new` (mod.rs 816-817): the patches discovered in directory
enumeration order are sorted by `index` (`sort_by_key`, a stable ascending
sort, modelled by insertion sort on the `index` key). -/
def sortPatchesByIndex (discovered : List Patch) : List Patch :=
  List.insertionSort (fun a b => a.index ≤ b.index) discovered

instance : IsTotal Patch (fun a b => a.index ≤ b.index) :=
  ⟨fun a b => Nat.le_total a.index b.index⟩

instance : IsTrans Patch (fun a b => a.index ≤ b.index) :=
  ⟨fun _ _ _ h1 h2 => Nat.le_trans h1 h2⟩

/-- One scenario step of a measured iteration in `Benchmark::measure`
(mod.rs 992-1037). An `incrPatched` step records the `enumerate` position and
the patch applied just before the build. -/
inductive Step
  | full
  | incrFull
  | incrUnchanged
  | incrPatched (idx : Nat) (patch : Patch)
deriving DecidableEq

/-- The `Scenario` a step belongs to. -/
def Step.scenarioOf : Step → Scenario
  | Step.full => Scenario.Full
  | Step.incrFull => Scenario.IncrFull
  | Step.incrUnchanged => Scenario.IncrUnchanged
  | Step.incrPatched _ _ => Scenario.IncrPatched

/-- Whether a step is one of the three incremental scenario steps. -/
def Step.isIncremental : Step → Bool
  | Step.full => false
  | _ => true

/-- The patch of an `incrPatched` step, if any. -/
def Step.patchOf : Step → Option Patch
  | Step.incrPatched _ p => some p
  | _ => none

/-- The scenario steps `Benchmark::measure` executes within one measured
iteration (mod.rs 992-1037), in program order: Full if requested; then, only
when the profile is not Doc ("Rustdoc does not support incremental
compilation", mod.rs 999-1000): IncrFull if any requested scenario is
incremental (mod.rs 1003), IncrUnchanged if requested (mod.rs 1011), and, if
IncrPatched is requested, one step per patch of `self.patches` in list order
(`iter().enumerate()`, mod.rs 1018-1035). -/
def iterationSteps (profile : Profile) (scenarios : List Scenario) (patches : List Patch) :
    List Step :=
  (if Scenario.Full ∈ scenarios then [Step.full] else []) ++
    (if profile ≠ Profile.Doc then
      (if scenarios.any Scenario.is_incr then [Step.incrFull] else []) ++
        ((if Scenario.IncrUnchanged ∈ scenarios then [Step.incrUnchanged] else []) ++
          (if Scenario.IncrPatched ∈ scenarios then
            patches.enum.map (fun ip => Step.incrPatched ip.1 ip.2)
          else []))
    else [])

/-- The iteration indices whose bodies `Benchmark::measure` executes for one
prepared profile (mod.rs 977-986): the loop runs `i` over
`0..max(iterations, 2)` and, at `i == 1` only, breaks before the body when the
configured iteration count is exactly 1 and `finished_first_collection`
(invoked right there, on the boundary between the first and second iteration)
returned false, i.e. the processor's tool does not change after the first
collection. -/
def measureIterationIndices (iterations : Nat) (different : Bool) : List Nat :=
  (List.range (Nat.max iterations 2)).takeWhile
    (fun i => !(decide (i = 1) && decide (iterations = 1) && !different))

/-- `Stats` (mod.rs 1194-1223): a map from statistic name to value
(`HashMap<String, f64>`), modelled as an association list with unique keys. -/
structure Stats where
  stats : List (String × Rat)
deriving DecidableEq

def Stats.new : Stats := ⟨[]⟩

/-- `Stats::insert` (mod.rs 1220-1222) = `HashMap::insert`: if the key is
already present its value is replaced, otherwise the entry is added. -/
def Stats.insert (s : Stats) (stat : String) (value : Rat) : Stats :=
  if s.stats.any (fun kv => decide (kv.1 = stat)) then
    ⟨s.stats.map (fun kv => if kv.1 = stat then (stat, value) else kv)⟩
  else ⟨s.stats ++ [(stat, value)]⟩

/-- `Stats::is_empty` (mod.rs 1216-1218). -/
def Stats.is_empty (s : Stats) : Bool := s.stats.isEmpty

/-- Map lookup on a `Stats` value (`HashMap::get`). -/
def Stats.lookup (s : Stats) (stat : String) : Option Rat :=
  s.stats.lookup stat

/-- The statistic names held by a `Stats` value, as iteration yields them. -/
def Stats.keys (s : Stats) : List String := s.stats.map Prod.fst

/-- Splits a character list at every occurrence of `c`, like Rust
`str::split(c)`: n separators yield n+1 (possibly empty) fields. -/
def splitOnChar (c : Char) : List Char → List (List Char)
  | [] => [[]]
  | x :: xs =>
    if x = c then [] :: splitOnChar c xs
    else
      match splitOnChar c xs with
      | [] => [[x]]
      | g :: gs => (x :: g) :: gs

/-- Rust `line.split(';')` (mod.rs 1134) over the string's characters. -/
def splitSemis (s : String) : List String :=
  (splitOnChar ';' s.toList).map (fun cs => String.mk cs)

/-- Rust `str::starts_with` over the characters. -/
def strStartsWith (s pat : String) : Bool :=
  pat.toList.isPrefixOf s.toList

/-- Rust `&line[p.len()..]`: drops the leading `n` characters (the sentinel
prefixes are ASCII, so bytes and characters agree). -/
def strDropLen (s : String) (n : Nat) : String := String.mk (s.toList.drop n)

/-- Rust `str::trim` over the characters. -/
def strTrim (s : String) : String :=
  String.mk (((s.toList.dropWhile Char.isWhitespace).reverse.dropWhile
    Char.isWhitespace).reverse)

/-- The numeric value of a digit list, most significant digit first. -/
def digitsVal (cs : List Char) : Nat :=
  cs.foldl (fun a c => a * 10 + (c.toNat - 48)) 0

/-- Models Rust `str::parse::<f64>()` on the finite decimal forms the
collector consumes (optional sign, decimal digits with optional fraction,
optional decimal exponent). The value is kept exact as a rational; special
forms (infinities, NaN) are not modelled - every input at issue in the claims
is a plain decimal. `none` is the `ParseFloatError` case of the source. -/
def parseF64 (s : String) : Option Rat :=
  let cs := s.toList
  let sgn : Rat :=
    match cs with
    | '-' :: _ => -1
    | _ => 1
  let cs1 : List Char :=
    match cs with
    | '-' :: rest => rest
    | '+' :: rest => rest
    | _ => cs
  let mant := cs1.takeWhile (fun c => !(c == 'e' || c == 'E'))
  let rest := cs1.dropWhile (fun c => !(c == 'e' || c == 'E'))
  let ip := mant.takeWhile (fun c => !(c == '.'))
  let fpRest := mant.dropWhile (fun c => !(c == '.'))
  let fracQ : Option (List Char) :=
    match fpRest with
    | [] => some []
    | _ :: fr => if fr.any (fun c => c == '.') then none else some fr
  match fracQ with
  | none => none
  | some frac =>
    if ip.all Char.isDigit && frac.all Char.isDigit && !(ip.isEmpty && frac.isEmpty) then
      let base : Rat :=
        sgn * ((digitsVal ip : Rat) + (digitsVal frac : Rat) / ((10 : Rat) ^ frac.length))
      match rest with
      | [] => some base
      | _ :: expCs =>
        let eneg : Bool :=
          match expCs with
          | '-' :: _ => true
          | _ => false
        let eds : List Char :=
          match expCs with
          | '-' :: r => r
          | '+' :: r => r
          | _ => expCs
        if !eds.isEmpty && eds.all Char.isDigit then
          let e := digitsVal eds
          some (if eneg then base / ((10 : Rat) ^ e) else base * ((10 : Rat) ^ e))
        else none
    else none

/-- The output shape of the external `collector::etw_parser::parse_etw_file`
decoder (an external collaborator per the spec; only its output shape
matters): total cycles, retired instructions, CPU-clock time
(mod.rs 1094-1104). -/
structure EtwCounters where
  total_cycles : Nat
  instructions_retired : Nat
  cpu_clock : Rat
deriving DecidableEq

/-- `SelfProfileFiles` (mod.rs 1056-1065). The source `Seven` variant stores
three concrete paths found by scanning `dir` for the expected suffixes
(filesystem access, mod.rs 1156-1180); that scan is external I/O, so the
variant here keeps the selecting data: the declared directory and prefix. -/
inductive SelfProfileFiles
  | Seven (dir : String) (pfx : String)
  | Eight (file : String)
deriving DecidableEq

/-- `DeserializeStatError` (mod.rs 1046-1054): `NoOutput` carries the captured
output (modelled by its stdout lines), `ParseError` the text that failed to
parse as a float, `XperfError` a wrapped error message. -/
inductive DeserializeStatError
  | NoOutput (stdout : List String)
  | ParseError (s : String)
  | XperfError (msg : String)
deriving DecidableEq

/-- The mutable state of the line loop of `process_stat_output`
(mod.rs 1071-1076): collected stats, the raw `!self-profile-output:` payload
(its JSON decoding is external, so the payload text is kept), and the declared
self-profile dir/prefix/file. -/
structure LoopState where
  stats : Stats
  profile : Option String
  dir : Option String
  pfx : Option String
  file : Option String
deriving DecidableEq

def initLoopState : LoopState := ⟨Stats.new, none, none, none, none⟩

/-- The panic message of the percentage validity check (mod.rs 1143-1148). -/
def validityPanicMsg (nm pct : String) : String :=
  "measurement of `" ++ nm ++ "` only active for " ++ pct ++ "% of the time"

/-- How one line of the loop body of `process_stat_output` ends
(mod.rs 1077-1154): continue with an updated state, return
`Err(ParseError ..)` early, or panic (the percentage validity check at
mod.rs 1143-1148, or the `.unwrap()` of the etw decode at mod.rs 1096). -/
inductive LineRes
  | cont (st : LoopState)
  | parseErr (s : String)
  | fatalRes (msg : String)
deriving DecidableEq

/-- One iteration of the line loop of `process_stat_output`
(mod.rs 1077-1154), on the unix configuration (`cfg!(windows)` is false, so a
non-sentinel line falls through to the Linux `perf` counter format
`count;unit;name;time;percentage`; fields are trimmed, lines with fewer than
five fields are skipped with a warning, as are lines whose count field is
`<not supported>` or empty). `etw` is the external
`etw_parser::parse_etw_file`; `none` models its `Err`, which the source
`.unwrap()`s into a panic. -/
def process_line (etw : String → Option EtwCounters) (st : LoopState) (line : String) :
    LineRes :=
  if strStartsWith line ("!self-profile-output:") then
    LineRes.cont { st with profile := some (strDropLen line ("!self-profile-output:").length) }
  else if strStartsWith line ("!self-profile-dir:") then
    LineRes.cont { st with dir := some (strDropLen line ("!self-profile-dir:").length) }
  else if strStartsWith line ("!self-profile-prefix:") then
    LineRes.cont { st with pfx := some (strDropLen line ("!self-profile-prefix:").length) }
  else if strStartsWith line ("!self-profile-file:") then
    LineRes.cont { st with file := some (strDropLen line ("!self-profile-file:").length) }
  else if strStartsWith line ("!counters-file:") then
    match etw (strDropLen line ("!counters-file:").length) with
    | some counters =>
      let stats2 :=
        ((st.stats.insert ("cycles") (counters.total_cycles : Rat)).insert
          ("instructions:u") (counters.instructions_retired : Rat)).insert
          ("cpu-clock") counters.cpu_clock
      LineRes.cont { st with stats := stats2 }
    | none => LineRes.fatalRes ("could not parse etw counters file")
  else if strStartsWith line ("!wall-time:") then
    match parseF64 (strDropLen line ("!wall-time:").length) with
    | some value => LineRes.cont { st with stats := st.stats.insert ("wall-time") value }
    | none => LineRes.parseErr (strDropLen line ("!wall-time:").length)
  else
    match (splitSemis line).map strTrim with
    | cnt :: _u :: nm :: _t :: pct :: _ =>
      if cnt = "<not supported>" ∨ cnt.length = 0 then LineRes.cont st
      else if !(strStartsWith pct ("100.")) then LineRes.fatalRes (validityPanicMsg nm pct)
      else
        match parseF64 cnt with
        | some value => LineRes.cont { st with stats := st.stats.insert nm value }
        | none => LineRes.parseErr cnt
    | _ => LineRes.cont st

/-- Whether a line carries one of the six sentinel prefixes of
`process_stat_output` (mod.rs 1078-1113). -/
def isSentinelLine (line : String) : Bool :=
  strStartsWith line ("!self-profile-output:") || strStartsWith line ("!self-profile-dir:") ||
    strStartsWith line ("!self-profile-prefix:") ||
    strStartsWith line ("!self-profile-file:") ||
    strStartsWith line ("!counters-file:") || strStartsWith line ("!wall-time:")

/-- The line loop of `process_stat_output` (mod.rs 1077-1154): lines are
processed in order; the first early return or panic ends the loop. -/
def process_lines (etw : String → Option EtwCounters) :
    LoopState → List String → LineRes
  | st, [] => LineRes.cont st
  | st, line :: rest =>
    match process_line etw st line with
    | LineRes.cont st2 => process_lines etw st2 rest
    | r => r

/-- How `process_stat_output` ends: `Ok((stats, profile, files))`, `Err(..)`,
or a panic. -/
inductive StatResult
  | ok (stats : Stats) (profile : Option String) (files : Option SelfProfileFiles)
  | err (e : DeserializeStatError)
  | fatal (msg : String)
deriving DecidableEq

/-- `process_stat_output` (mod.rs 1067-1192) on the unix configuration, taking
the captured stdout as its list of lines: run the line loop, resolve the
self-profile files variant (`Seven` when both prefix and dir were declared,
else `Eight` when a file was, else none; mod.rs 1156-1185), return
`Err(NoOutput)` when the collected statistics are empty (mod.rs 1187-1189),
and `Ok` otherwise. -/
def process_stat_output (etw : String → Option EtwCounters) (lines : List String) :
    StatResult :=
  match process_lines etw initLoopState lines with
  | LineRes.parseErr s => StatResult.err (DeserializeStatError.ParseError s)
  | LineRes.fatalRes m => StatResult.fatal m
  | LineRes.cont st =>
    let files : Option SelfProfileFiles :=
      match st.pfx, st.dir with
      | some p, some d => some (SelfProfileFiles.Seven d p)
      | _, _ =>
        match st.file with
        | some f => some (SelfProfileFiles.Eight f)
        | none => none
    if st.stats.is_empty then StatResult.err (DeserializeStatError.NoOutput lines)
    else StatResult.ok st.stats st.profile files

theorem is_scenario_allowed_perfStat (sc : Scenario) :
    PerfTool.is_scenario_allowed (PerfTool.BenchTool Bencher.PerfStat) sc = true := rfl

theorem cargo_subcommand_perfStat (profile : Profile) :
    PerfTool.cargo_subcommand (PerfTool.BenchTool Bencher.PerfStat) profile =
      CargoSub.sub (if profile = Profile.Doc then ("rustdoc") else ("rustc")) := by
  cases profile <;> rfl

/-- With a `BenchProcessor` that always reports `NoOutput`, a `run_rustc` call
entered with `tries ≤ 5` on the counter spawns the compiler `6 - tries` more
times and then aborts fatally, leaving the counter at 5. -/
theorem run_rustc_noOutput (profile : Profile) (sc : Scenario) :
    ∀ fuel tries spawns : Nat, tries ≤ 5 → 6 - tries ≤ fuel →
      run_rustc (some (benchNoOutputProc, sc)) profile fuel tries spawns =
        some (5, spawns + (6 - tries), RunResult.fatal) := by
  intro fuel
  induction fuel with
  | zero => intro tries spawns h1 h2; omega
  | succ fuel ih =>
    intro tries spawns h1 h2
    by_cases h : tries < 5
    · have hrec := ih (tries + 1) (spawns + 1) (by omega) (by omega)
      have harith : spawns + 1 + (6 - (tries + 1)) = spawns + (6 - tries) := by omega
      rw [harith] at hrec
      rw [run_rustc]
      simp only [benchNoOutputProc, PerfTool.is_scenario_allowed, cargo_subcommand_perfStat,
        benchNoOutput_process_output, h, if_true]
      exact hrec
    · have h5 : tries = 5 := by omega
      subst h5
      rw [run_rustc]
      simp [benchNoOutputProc, PerfTool.is_scenario_allowed, cargo_subcommand_perfStat,
        benchNoOutput_process_output]

/-- C1: with a processor whose `process_output` always reports the transient
"no output" condition, `run_rustc` issues the compiler subprocess exactly 6
times (the initial invocation plus 5 retries) starting from the
freshly-constructed `tries = 0` counter, and then escalates to a fatal panic.
The counter lives in the processor instance: `process_output` never decreases
it and nothing resets it, so a later scenario of the same run continues from
where it stopped - entered at `tries = 5`, the loop issues exactly 1 more
subprocess before the fatal escalation. -/
theorem c1_retry_loop_spawns_six (profile : Profile) (sc : Scenario) (fuel : Nat)
    (hfuel : 6 ≤ fuel) :
    run_rustc (some (benchNoOutputProc, sc)) profile fuel 0 0 =
      some (5, 6, RunResult.fatal) ∧
    (∀ tries : Nat, tries ≤ (benchNoOutput_process_output tries).1) ∧
    (∀ fuel2 : Nat, 1 ≤ fuel2 →
      run_rustc (some (benchNoOutputProc, sc)) profile fuel2 5 0 =
        some (5, 1, RunResult.fatal)) := by
  refine ⟨?_, ?_, ?_⟩
  · have h := run_rustc_noOutput profile sc fuel 0 0 (by omega) (by omega)
    simpa using h
  · intro tries
    unfold benchNoOutput_process_output
    split <;> omega
  · intro fuel2 h2
    have h := run_rustc_noOutput profile sc fuel2 5 0 (by omega) (by omega)
    simpa using h

theorem c1_witness :
    6 ≤ 6 ∧
      run_rustc (some (benchNoOutputProc, Scenario.Full)) Profile.Check 6 0 0 =
        some (5, 6, RunResult.fatal) :=
  ⟨Nat.le_refl 6,
    (c1_retry_loop_spawns_six Profile.Check Scenario.Full 6 (Nat.le_refl 6)).1⟩

/-- C5: with an attached processor, if the active `PerfTool` does not allow
the current scenario, or yields no cargo subcommand for the current build
profile, `run_rustc` returns an error (a hard `Err`, not a skip) with zero
compiler subprocesses spawned. -/
theorem c5_capability_violation_errors_before_spawn (σ : Type) (pm : ProcModel σ)
    (sc : Scenario) (profile : Profile) (s : σ) (fuel : Nat)
    (h : (pm.perf_tool s).is_scenario_allowed sc = false ∨
      (pm.perf_tool s).cargo_subcommand profile = CargoSub.unsupported) :
    run_rustc (some (pm, sc)) profile (fuel + 1) s 0 = some (s, 0, RunResult.error) := by
  rw [run_rustc]
  rcases h with h | h
  · simp [h]
  · by_cases hall : (pm.perf_tool s).is_scenario_allowed sc
    · simp [hall, h]
    · simp [hall]

theorem c5_witness :
    ((depGraphProc.perf_tool ()).is_scenario_allowed Scenario.Full = false ∨
      (depGraphProc.perf_tool ()).cargo_subcommand Profile.Check = CargoSub.unsupported) ∧
    run_rustc (some (depGraphProc, Scenario.Full)) Profile.Check 1 () 0 =
      some ((), 0, RunResult.error) :=
  ⟨Or.inl rfl,
    c5_capability_violation_errors_before_spawn Unit depGraphProc Scenario.Full
      Profile.Check () 0 (Or.inl rfl)⟩

theorem takeWhile_eq_self_of_forall {α : Type} (p : α → Bool) :
    ∀ l : List α, (∀ x ∈ l, p x = true) → l.takeWhile p = l := by
  intro l h
  induction l with
  | nil => rfl
  | cons x xs ih =>
    have hx : p x = true := h x (List.mem_cons_self x xs)
    have hxs : ∀ y ∈ xs, p y = true := fun y hy => h y (List.mem_cons_of_mem x hy)
    simp [List.takeWhile_cons, hx, ih hxs]

/-- C2: for a configured iteration count `n`, each prepared profile executes
`max n 2` measured iterations, except that exactly 1 executes when `n = 1`
and `finished_first_collection` (invoked on the first-to-second iteration
boundary) reports the tool unchanged; with `n = 1` and a changed tool,
exactly 2 execute (which is `max 1 2`). -/
theorem c2_measured_iteration_count (iterations : Nat) (different : Bool) :
    (measureIterationIndices iterations different).length =
      if iterations = 1 ∧ different = false then 1 else Nat.max iterations 2 := by
  by_cases h : iterations = 1 ∧ different = false
  · rcases h with ⟨h1, h2⟩
    subst h1
    subst h2
    decide
  · rw [if_neg h]
    have hp : ∀ i ∈ List.range (Nat.max iterations 2),
        (!(decide (i = 1) && decide (iterations = 1) && !different)) = true := by
      intro i _
      by_cases hn : iterations = 1
      · have hd : different = true := by
          cases different
          · exact absurd ⟨hn, rfl⟩ h
          · rfl
        simp [hd]
      · simp [hn]
    rw [measureIterationIndices, takeWhile_eq_self_of_forall _ _ hp]
    exact List.length_range _

theorem ite_list_sublist {α : Type} {c : Prop} [Decidable c] (l : List α) :
    List.Sublist (if c then l else []) l := by
  split_ifs
  · exact List.Sublist.refl l
  · exact List.nil_sublist l

/-- C3 (amended): within one measured iteration the executed steps follow the
fixed order Full, IncrFull, IncrUnchanged, IncrPatched-per-patch (a sublist of
the canonical order), and each step executes exactly under its guard: Full iff
requested; IncrFull iff the profile is not Doc and any requested scenario is
incremental (IncrFull itself need not be requested); IncrUnchanged iff the
profile is not Doc and it is requested; an IncrPatched step per enumerated
patch iff the profile is not Doc and IncrPatched is requested. -/
theorem c3_scenario_steps_order_and_guards (profile : Profile) (scenarios : List Scenario)
    (patches : List Patch) :
    (Step.full ∈ iterationSteps profile scenarios patches ↔ Scenario.Full ∈ scenarios) ∧
    (Step.incrFull ∈ iterationSteps profile scenarios patches ↔
      profile ≠ Profile.Doc ∧ scenarios.any Scenario.is_incr = true) ∧
    (Step.incrUnchanged ∈ iterationSteps profile scenarios patches ↔
      profile ≠ Profile.Doc ∧ Scenario.IncrUnchanged ∈ scenarios) ∧
    (∀ (i : Nat) (p : Patch),
      Step.incrPatched i p ∈ iterationSteps profile scenarios patches ↔
        profile ≠ Profile.Doc ∧ Scenario.IncrPatched ∈ scenarios ∧ (i, p) ∈ patches.enum) ∧
    List.Sublist (iterationSteps profile scenarios patches)
      ([Step.full, Step.incrFull, Step.incrUnchanged] ++
        patches.enum.map (fun ip => Step.incrPatched ip.1 ip.2)) := by
  refine ⟨?_, ?_, ?_, ?_, ?_⟩
  · unfold iterationSteps
    split_ifs <;> simp_all
  · unfold iterationSteps
    split_ifs <;> simp_all
  · unfold iterationSteps
    split_ifs <;> simp_all
  · intro i p
    unfold iterationSteps
    split_ifs <;> simp_all
  · show List.Sublist _ ([Step.full] ++ ([Step.incrFull] ++ ([Step.incrUnchanged] ++
      patches.enum.map (fun ip => Step.incrPatched ip.1 ip.2))))
    unfold iterationSteps
    refine List.Sublist.append (ite_list_sublist _) ?_
    by_cases hd : profile ≠ Profile.Doc
    · rw [if_pos hd]
      exact List.Sublist.append (ite_list_sublist _)
        (List.Sublist.append (ite_list_sublist _) (ite_list_sublist _))
    · rw [if_neg hd]
      exact List.nil_sublist _

/-- C3 counterexample: with only IncrementalNoChange requested under the Check
profile, the IncrementalFromScratch step executes even though IncrFull is not
among the requested scenarios, so "each scenario step is executed only if that
scenario is among the requested scenarios" fails on the code. -/
theorem c3_counterexample :
    Step.incrFull ∈ iterationSteps Profile.Check [Scenario.IncrUnchanged] [] ∧
    Step.scenarioOf Step.incrFull ∉ [Scenario.IncrUnchanged] := by decide

theorem c3_witness :
    Step.full ∈ iterationSteps Profile.Check [Scenario.Full] [] :=
  (c3_scenario_steps_order_and_guards Profile.Check [Scenario.Full] []).1.mpr (by decide)

/-- C4: with build profile Doc, no incremental scenario step is ever attempted
in any iteration, whatever the requested scenarios: the iteration executes the
Full step when Full is requested and nothing else. -/
theorem c4_doc_profile_never_runs_incremental (scenarios : List Scenario)
    (patches : List Patch) :
    iterationSteps Profile.Doc scenarios patches =
      if Scenario.Full ∈ scenarios then [Step.full] else [] := by
  simp [iterationSteps]

theorem filterMap_patchOf_of_map_incrPatched :
    ∀ l : List (Nat × Patch),
      (l.map (fun ip => Step.incrPatched ip.1 ip.2)).filterMap Step.patchOf =
        l.map Prod.snd := by
  intro l
  induction l with
  | nil => rfl
  | cons x xs ih => simp [Step.patchOf, ih]

theorem filterMap_patchOf_enum (ps : List Patch) :
    (ps.enum.map (fun ip => Step.incrPatched ip.1 ip.2)).filterMap Step.patchOf = ps := by
  rw [filterMap_patchOf_of_map_incrPatched]
  exact List.enum_map_snd ps

/-- C8 (amended): whatever the directory enumeration order, `Benchmark::new`
holds the patches sorted by index in ascending (non-decreasing) order - a
permutation of the discovered patches - and the IncrPatched steps of a
measured iteration apply exactly the held list in its list order; the held
order is strictly ascending whenever the discovered indices are pairwise
distinct (patch identity does not rule out duplicate indices, and duplicates
stay adjacent rather than strictly increasing). -/
theorem c8_patches_ascending_and_applied_in_order (l : List Patch) :
    List.Perm (sortPatchesByIndex l) l ∧
    List.Sorted (· ≤ ·) ((sortPatchesByIndex l).map Patch.index) ∧
    ((l.map Patch.index).Nodup →
      List.Chain' (· < ·) ((sortPatchesByIndex l).map Patch.index)) ∧
    (∀ (profile : Profile) (scenarios : List Scenario) (ps : List Patch),
      profile ≠ Profile.Doc → Scenario.IncrPatched ∈ scenarios →
        (iterationSteps profile scenarios ps).filterMap Step.patchOf = ps) := by
  have hperm : List.Perm (sortPatchesByIndex l) l := by
    unfold sortPatchesByIndex
    exact List.perm_insertionSort (fun a b : Patch => a.index ≤ b.index) l
  have hsorted : List.Sorted (· ≤ ·) ((sortPatchesByIndex l).map Patch.index) := by
    unfold sortPatchesByIndex
    exact List.pairwise_map.mpr
      (List.sorted_insertionSort (fun a b : Patch => a.index ≤ b.index) l)
  refine ⟨hperm, hsorted, ?_, ?_⟩
  · intro hnd
    have hmapperm : List.Perm ((sortPatchesByIndex l).map Patch.index)
        (l.map Patch.index) := hperm.map Patch.index
    have hnd2 : ((sortPatchesByIndex l).map Patch.index).Nodup :=
      (hmapperm.nodup_iff).mpr hnd
    have hlt : ((sortPatchesByIndex l).map Patch.index).Pairwise (· < ·) :=
      (hsorted.and hnd2).imp (fun h => lt_of_le_of_ne h.1 h.2)
    exact hlt.chain'
  · intro profile scenarios ps hdoc hmem
    unfold iterationSteps
    rw [if_pos hdoc, if_pos hmem]
    simp only [List.filterMap_append]
    rw [filterMap_patchOf_enum]
    split_ifs <;> simp [Step.patchOf]

/-- C8 counterexample: two patch files `0-a.patch` and `0-b.patch` parse to
distinct patches with the same index 0; after `Benchmark::new`'s sort the held
index sequence is `[0, 0]`, which is not strictly ascending, refuting "held
and applied in strictly ascending order of their numeric index" as stated. -/
theorem c8_counterexample :
    ¬ List.Chain' (· < ·)
      ((sortPatchesByIndex [⟨0, "a", "0-a.patch"⟩, ⟨0, "b", "0-b.patch"⟩]).map
        Patch.index) := by
  have h : (sortPatchesByIndex [⟨0, "a", "0-a.patch"⟩, ⟨0, "b", "0-b.patch"⟩]).map
      Patch.index = [0, 0] := by decide
  rw [h]
  intro hc
  rcases List.chain'_cons.mp hc with ⟨hlt, -⟩
  omega

theorem c8_witness :
    (([⟨1, "a", "x"⟩, ⟨2, "b", "y"⟩] : List Patch).map Patch.index).Nodup ∧
    List.Chain' (· < ·)
      ((sortPatchesByIndex [⟨1, "a", "x"⟩, ⟨2, "b", "y"⟩]).map Patch.index) ∧
    (iterationSteps Profile.Check [Scenario.IncrPatched]
        [⟨1, "a", "x"⟩]).filterMap Step.patchOf = [⟨1, "a", "x"⟩] := by
  refine ⟨by decide, ?_, ?_⟩
  · exact (c8_patches_ascending_and_applied_in_order
      [⟨1, "a", "x"⟩, ⟨2, "b", "y"⟩]).2.2.1 (by decide)
  · exact (c8_patches_ascending_and_applied_in_order []).2.2.2 Profile.Check
      [Scenario.IncrPatched] [⟨1, "a", "x"⟩] (by decide) (by decide)

/-- C9: `Patch` equality holds iff the names are equal, and the hash feeds
only the name to the hasher, so two patches with equal name and different
index compare equal and hash identically - index is ordering metadata, not
identity. -/
theorem c9_patch_identity_is_name_only :
    (∀ a b : Patch, Patch.beq a b = true ↔ a.name = b.name) ∧
    (∀ (hasher : String → Nat) (a b : Patch), a.name = b.name →
      Patch.hashWith hasher a = Patch.hashWith hasher b) := by
  constructor
  · intro a b
    simp [Patch.beq]
  · intro hasher a b h
    simp [Patch.hashWith, h]

theorem c9_witness :
    Patch.beq ⟨0, "n", "0-n.patch"⟩ ⟨1, "n", "1-n.patch"⟩ = true ∧
    Patch.hashWith String.length ⟨0, "n", "0-n.patch"⟩ =
      Patch.hashWith String.length ⟨1, "n", "1-n.patch"⟩ :=
  ⟨(c9_patch_identity_is_name_only.1 ⟨0, "n", "0-n.patch"⟩ ⟨1, "n", "1-n.patch"⟩).mpr rfl,
    c9_patch_identity_is_name_only.2 String.length ⟨0, "n", "0-n.patch"⟩
      ⟨1, "n", "1-n.patch"⟩ rfl⟩

/-- C6: on the unix configuration, a non-sentinel semicolon-delimited counter
line whose trimmed fields are `cnt;unit;name;time;pct`, with `cnt` neither
empty nor the `<not supported>` marker: if `pct` does not start with `100.`
the outcome is the fatal measurement-validity panic (never a parsed value,
never a retryable error); if it does, the parsed count is recorded as the
statistic under `name`. -/
theorem c6_perf_counter_line (etw : String → Option EtwCounters)
    (line cnt u2 nm t2 pct : String) (v : Rat)
    (hsent : isSentinelLine line = false)
    (hsplit : (splitSemis line).map strTrim = [cnt, u2, nm, t2, pct])
    (hns : cnt ≠ "<not supported>") (hlen : cnt.length ≠ 0) :
    (strStartsWith pct ("100.") = false →
      process_stat_output etw [line] = StatResult.fatal (validityPanicMsg nm pct)) ∧
    (strStartsWith pct ("100.") = true → parseF64 cnt = some v →
      process_stat_output etw [line] = StatResult.ok ⟨[(nm, v)]⟩ none none) := by
  simp only [isSentinelLine, Bool.or_eq_false_iff] at hsent
  obtain ⟨⟨⟨⟨⟨h1, h2⟩, h3⟩, h4⟩, h5⟩, h6⟩ := hsent
  constructor
  · intro hpct
    have hline : process_line etw initLoopState line =
        LineRes.fatalRes (validityPanicMsg nm pct) := by
      unfold process_line
      simp only [h1, h2, h3, h4, h5, h6, Bool.false_eq_true, if_false, hsplit]
      simp [hns, hlen, hpct]
    simp [process_stat_output, process_lines, hline]
  · intro hpct hparse
    have hinsert : Stats.new.insert nm v = Stats.mk [(nm, v)] := by
      simp [Stats.insert, Stats.new]
    have hline : process_line etw initLoopState line =
        LineRes.cont ⟨Stats.mk [(nm, v)], none, none, none, none⟩ := by
      unfold process_line
      simp only [h1, h2, h3, h4, h5, h6, Bool.false_eq_true, if_false, hsplit]
      simp [hns, hlen, hpct, hparse, initLoopState, hinsert]
    simp [process_stat_output, process_lines, hline, Stats.is_empty]

set_option maxRecDepth 8000 in
theorem c6_witness :
    isSentinelLine ("100;msec;cycles;1.0;100.00%") = false ∧
    process_stat_output (fun _ => none) ["100;msec;cycles;1.0;100.00%"] =
      StatResult.ok ⟨[("cycles", (100 : Rat))]⟩ none none ∧
    process_stat_output (fun _ => none) ["100;msec;cycles;1.0;50.00%"] =
      StatResult.fatal (validityPanicMsg ("cycles") ("50.00%")) := by
  refine ⟨by decide, ?_, ?_⟩
  · exact (c6_perf_counter_line (fun _ => none) ("100;msec;cycles;1.0;100.00%") ("100")
      ("msec") ("cycles") ("1.0") ("100.00%") 100 (by decide) (by decide) (by decide)
      (by decide)).2 (by decide) (by with_unfolding_all decide)
  · exact (c6_perf_counter_line (fun _ => none) ("100;msec;cycles;1.0;50.00%") ("100")
      ("msec") ("cycles") ("1.0") ("50.00%") 0 (by decide) (by decide) (by decide)
      (by decide)).1 (by decide)

/-- C7 (amended): `process_stat_output` returns the `NoOutput` error kind
exactly when the line loop runs to completion - without a float-parse failure
or a validity/decode panic - and zero statistics were collected; and the three
error kinds `NoOutput`, `ParseError`, `XperfError` are pairwise distinct. -/
theorem c7_no_output_error_kind :
    (∀ (etw : String → Option EtwCounters) (lines : List String),
      ((∃ o, process_stat_output etw lines =
          StatResult.err (DeserializeStatError.NoOutput o)) ↔
        (∃ st, process_lines etw initLoopState lines = LineRes.cont st ∧
          st.stats.is_empty = true))) ∧
    (∀ (o : List String) (s : String),
      DeserializeStatError.NoOutput o ≠ DeserializeStatError.ParseError s) ∧
    (∀ (o : List String) (m : String),
      DeserializeStatError.NoOutput o ≠ DeserializeStatError.XperfError m) ∧
    (∀ (s m : String),
      DeserializeStatError.ParseError s ≠ DeserializeStatError.XperfError m) := by
  refine ⟨?_, ?_, ?_, ?_⟩
  · intro etw lines
    unfold process_stat_output
    cases h : process_lines etw initLoopState lines with
    | cont st =>
      by_cases he : st.stats.is_empty
      · simp [he]
      · simp [he]
    | parseErr s => simp
    | fatalRes m => simp
  · intro o s h
    exact DeserializeStatError.noConfusion h
  · intro o m h
    exact DeserializeStatError.noConfusion h
  · intro s m h
    exact DeserializeStatError.noConfusion h

/-- C7 counterexample: on the captured output `["!wall-time:abc"]` zero
statistics are collected - the loop stops at its very first line, still in the
initial state, whose stats are empty - yet the returned error kind is
`ParseError`, not `NoOutput`, refuting the claimed "exactly when". -/
theorem c7_counterexample :
    process_stat_output (fun _ => none) ["!wall-time:abc"] =
      StatResult.err (DeserializeStatError.ParseError ("abc")) ∧
    initLoopState.stats.is_empty = true ∧
    DeserializeStatError.ParseError ("abc") ≠
      DeserializeStatError.NoOutput ["!wall-time:abc"] := by
  refine ⟨by with_unfolding_all decide, rfl, ?_⟩
  intro h
  exact DeserializeStatError.noConfusion h

theorem c7_witness :
    DeserializeStatError.NoOutput ([] : List String) ≠
      DeserializeStatError.ParseError ("x") :=
  c7_no_output_error_kind.2.1 [] ("x")

theorem lookup_map_replace (k : String) (v : Rat) :
    ∀ l : List (String × Rat), l.any (fun kv => decide (kv.1 = k)) = true →
      (l.map (fun kv => if kv.1 = k then (k, v) else kv)).lookup k = some v := by
  intro l
  induction l with
  | nil => simp
  | cons x xs ih =>
    intro h
    simp only [List.map_cons]
    by_cases hx : x.1 = k
    · rw [if_pos hx]
      simp [List.lookup]
    · rw [if_neg hx]
      have hxs : xs.any (fun kv => decide (kv.1 = k)) = true := by
        simp only [List.any_cons, Bool.or_eq_true] at h
        rcases h with h | h
        · exact absurd (of_decide_eq_true h) hx
        · exact h
      have hb : (k == x.1) = false := beq_eq_false_iff_ne.mpr (Ne.symm hx)
      simp [List.lookup, hb, ih hxs]

theorem lookup_append_new (k : String) (v : Rat) :
    ∀ l : List (String × Rat), l.any (fun kv => decide (kv.1 = k)) = false →
      (l ++ [(k, v)]).lookup k = some v := by
  intro l
  induction l with
  | nil =>
    intro _
    simp [List.lookup]
  | cons x xs ih =>
    intro h
    simp only [List.any_cons, Bool.or_eq_false_iff] at h
    have hx : ¬ (x.1 = k) := of_decide_eq_false h.1
    have hb : (k == x.1) = false := beq_eq_false_iff_ne.mpr (Ne.symm hx)
    simp [List.lookup, hb, ih h.2]

theorem lookup_map_replace_other (k k2 : String) (v : Rat) (hne : k2 ≠ k) :
    ∀ l : List (String × Rat),
      (l.map (fun kv => if kv.1 = k then (k, v) else kv)).lookup k2 = l.lookup k2 := by
  intro l
  induction l with
  | nil => rfl
  | cons x xs ih =>
    simp only [List.map_cons]
    by_cases hx : x.1 = k
    · rw [if_pos hx]
      have hb1 : (k2 == k) = false := beq_eq_false_iff_ne.mpr hne
      have hb2 : (k2 == x.1) = false := by
        rw [hx]
        exact hb1
      simp [List.lookup, hb1, hb2, ih]
    · rw [if_neg hx]
      by_cases h2 : k2 = x.1
      · simp [List.lookup, h2]
      · have hb : (k2 == x.1) = false := beq_eq_false_iff_ne.mpr h2
        simp [List.lookup, hb, ih]

theorem lookup_append_other (k k2 : String) (v : Rat) (hne : k2 ≠ k) :
    ∀ l : List (String × Rat), (l ++ [(k, v)]).lookup k2 = l.lookup k2 := by
  intro l
  induction l with
  | nil =>
    have hb : (k2 == k) = false := beq_eq_false_iff_ne.mpr hne
    simp [List.lookup, hb]
  | cons x xs ih =>
    by_cases h2 : k2 = x.1
    · simp [List.lookup, h2]
    · have hb : (k2 == x.1) = false := beq_eq_false_iff_ne.mpr h2
      simp [List.lookup, hb, ih]

theorem keys_map_replace (k : String) (v : Rat) (l : List (String × Rat)) :
    (l.map (fun kv => if kv.1 = k then (k, v) else kv)).map Prod.fst = l.map Prod.fst := by
  induction l with
  | nil => rfl
  | cons x xs ih =>
    by_cases hx : x.1 = k
    · simp [hx, ih]
    · simp [hx, ih]

/-- C10: `Stats::insert` is last-write-wins - after inserting, looking the
name up yields the new value, every other name is unchanged, and a map whose
names were unique still has unique names (so iteration yields each name
exactly once); in particular, when the parser sees two recognized counter
lines for the same statistic name, only the later value is kept. -/
theorem c10_stats_insert_last_write_wins :
    (∀ (s : Stats) (k : String) (v : Rat), (s.insert k v).lookup k = some v) ∧
    (∀ (s : Stats) (k : String) (v : Rat) (k2 : String), k2 ≠ k →
      (s.insert k v).lookup k2 = s.lookup k2) ∧
    (∀ (s : Stats) (k : String) (v : Rat), s.keys.Nodup → (s.insert k v).keys.Nodup) ∧
    process_stat_output (fun _ => none)
      ["100;msec;cycles;1.0;100.00%", "200;msec;cycles;1.0;100.00%"] =
      StatResult.ok ⟨[("cycles", (200 : Rat))]⟩ none none := by
  refine ⟨?_, ?_, ?_, by with_unfolding_all decide⟩
  · intro s k v
    unfold Stats.insert Stats.lookup
    by_cases h : s.stats.any (fun kv => decide (kv.1 = k))
    · rw [if_pos h]
      exact lookup_map_replace k v s.stats h
    · rw [if_neg h]
      exact lookup_append_new k v s.stats (Bool.eq_false_iff.mpr h)
  · intro s k v k2 hne
    unfold Stats.insert Stats.lookup
    by_cases h : s.stats.any (fun kv => decide (kv.1 = k))
    · rw [if_pos h]
      exact lookup_map_replace_other k k2 v hne s.stats
    · rw [if_neg h]
      exact lookup_append_other k k2 v hne s.stats
  · intro s k v hnd
    unfold Stats.insert Stats.keys
    by_cases h : s.stats.any (fun kv => decide (kv.1 = k))
    · rw [if_pos h]
      simpa [keys_map_replace k v s.stats] using hnd
    · rw [if_neg h]
      have hk : k ∉ s.stats.map Prod.fst := by
        intro hmem
        rcases List.mem_map.mp hmem with ⟨kv, hkv, hfst⟩
        have : s.stats.any (fun kv => decide (kv.1 = k)) = true :=
          List.any_eq_true.mpr ⟨kv, hkv, decide_eq_true hfst⟩
        exact h this
      simp only [List.map_append, List.map_cons, List.map_nil]
      rw [List.nodup_append]
      refine ⟨hnd, List.nodup_singleton k, ?_⟩
      intro a ha hb
      rcases List.mem_singleton.mp hb with rfl
      exact hk ha

theorem c10_witness :
    ((Stats.mk [(("a"), (1 : Rat))]).insert ("b") 2).lookup ("b") = some 2 ∧
    ((Stats.mk [(("a"), (1 : Rat))]).insert ("b") 2).lookup ("c") =
      (Stats.mk [(("a"), (1 : Rat))]).lookup ("c") ∧
    ((Stats.mk [(("a"), (1 : Rat))]).insert ("b") 2).keys.Nodup :=
  ⟨c10_stats_insert_last_write_wins.1 (Stats.mk [(("a"), 1)]) ("b") 2,
    c10_stats_insert_last_write_wins.2.1 (Stats.mk [(("a"), 1)]) ("b") 2 ("c")
      (by decide),
    c10_stats_insert_last_write_wins.2.2.1 (Stats.mk [(("a"), 1)]) ("b") 2 (by decide)⟩

end Collector
